import Mathlib

/-
Verification of the machine lifecycle, address handling and container-support
behaviour of the juju `state` package.  The machine implementation itself is
not present in the source tree (only its test suite, `state/machine_test.go`,
is); the definitions below are therefore modelled from the specification
(spec.md sections 3, 4.3, 4.4 and 7), kept consistent with the behaviours the
in-tree test suite asserts.
-/

namespace JujuState

/-- Modelled from the spec: the machine lifecycle states Alive, Dying and Dead
(the terminal Removed state is tracked separately by document presence). -/
inductive Life where
  | alive
  | dying
  | dead
deriving DecidableEq, Repr

/-- Modelled from the spec: machine job roles HostUnits and ManageModel. -/
inductive MachineJob where
  | hostUnits
  | manageModel
deriving DecidableEq, Repr

/-- Modelled from the spec: a principal unit assigned to a machine, with the
unit's own life and the life of its owning application. -/
structure UnitInfo where
  name : String
  unitLife : Life
  appLife : Life
deriving DecidableEq, Repr

/-- Modelled from the spec: the snapshot of a machine document that the
lifecycle operations read — identity, job roles, life, replica-set voting
flag, assigned principal units and child container ids. -/
structure MachineView where
  id : String
  jobs : List MachineJob
  life : Life
  hasVote : Bool
  principals : List UnitInfo
  containers : List String
deriving DecidableEq, Repr

/-- Modelled from the spec: the business-rule errors of the lifecycle state
machine (section 7 taxonomy). -/
inductive LifecycleError where
  | managerMachine
  | requiredByModel (mid : String)
  | hasAssignedUnits (mid : String) (unitNames : List String)
  | hasContainers (mid : String) (containerIds : List String)
  | votingMember (mid : String)
  | contention (mid : String)
  | removeNotDead (mid : String)
deriving DecidableEq, Repr

/-- Modelled from the spec: the user-visible message of each business-rule
error, precise about the blocking condition (unit names, container ids). -/
def LifecycleError.message : LifecycleError → String
  | .managerMachine => "machine is required by the model"
  | .requiredByModel mid => "machine " ++ mid ++ " is required by the model"
  | .hasAssignedUnits mid us =>
      "machine " ++ mid ++ " has unit \"" ++ us.headD "" ++ "\" assigned"
  | .hasContainers mid cs =>
      "machine " ++ mid ++ " is hosting containers \"" ++
        String.intercalate "," cs ++ "\""
  | .votingMember mid => "machine " ++ mid ++ " is a voting replica set member"
  | .contention mid =>
      "machine " ++ mid ++
        " cannot advance lifecycle: state changing too quickly; try again soon"
  | .removeNotDead mid => "cannot remove machine " ++ mid ++ ": machine is not dead"

/-- The two lifecycle transitions requested through advanceLifecycle:
Destroy targets Dying, EnsureDead targets Dead. -/
inductive AdvanceTarget where
  | dying
  | dead
deriving DecidableEq, Repr

def AdvanceTarget.toLife : AdvanceTarget → Life
  | .dying => .dying
  | .dead => .dead

/-- Modelled from the spec: a principal unit blocks a lifecycle advance only
when both the unit and its owning application are still Alive (a unit whose
destruction is pending no longer blocks, per the Destroy-with-destroy-pending
behaviour of the test suite). -/
def unitBlocks (u : UnitInfo) : Bool :=
  u.unitLife == Life.alive && u.appLife == Life.alive

/-- Life sanity for a requested advance: the operation is an idempotent no-op
when the machine has already advanced at least as far as requested. -/
def lifeNoOp : AdvanceTarget → Life → Bool
  | .dying, l => l != Life.alive
  | .dead, l => l == Life.dead

/-- The life assertion a lifecycle advance places in its conditional
operation set. -/
def lifeAssert : AdvanceTarget → Life → Bool
  | .dying, l => l == Life.alive
  | .dead, l => l != Life.dead

/-- The result of one builder invocation: a business-rule failure, a no-op,
or a conditional operation set recording the principal units asserted. -/
inductive BuildResult where
  | failed (e : LifecycleError)
  | noOperations
  | ops (assertedPrincipals : List String)
deriving Repr

/-- Modelled from the spec (section 4.3): the builder step of a lifecycle
advance.  A machine carrying the ManageModel job always fails with the
required-by-model error, regardless of other state; an already-advanced
machine is a no-op; a voting replica-set member fails; a machine still
hosting child containers fails with the container-listing error; a machine
with a principal unit that is still fully alive fails with the
assigned-units error; otherwise an operation set is produced that asserts
the observed principals and the absence of containers. -/
def advanceBuild (t : AdvanceTarget) (v : MachineView) : BuildResult :=
  if MachineJob.manageModel ∈ v.jobs then .failed (.requiredByModel v.id)
  else if lifeNoOp t v.life then .noOperations
  else if v.hasVote then .failed (.votingMember v.id)
  else if v.containers ≠ [] then .failed (.hasContainers v.id v.containers)
  else if v.principals.any unitBlocks then
    .failed (.hasAssignedUnits v.id (v.principals.map UnitInfo.name))
  else .ops (v.principals.map UnitInfo.name)

/-- Modelled from the spec (section 4.1): the assertions a lifecycle advance
operation set carries, re-validated against the live document at commit
time — no ManageModel job, no vote, the life assertion, the principal units
unchanged from the snapshot, and no child containers. -/
def commitOK (t : AdvanceTarget) (names : List String) (c : MachineView) : Prop :=
  MachineJob.manageModel ∉ c.jobs ∧ c.hasVote = false ∧
    lifeAssert t c.life = true ∧ c.principals.map UnitInfo.name = names ∧
    c.containers = []

instance (t : AdvanceTarget) (names : List String) (c : MachineView) :
    Decidable (commitOK t names c) := by
  unfold commitOK
  infer_instance

/-- Outcome of a single transactional attempt: a final result, or an abort
caused by an assertion defeated at commit time. -/
inductive AttemptOutcome where
  | done (r : Except LifecycleError Life)
  | aborted
deriving Repr

/-- One transactional attempt of a lifecycle advance: build the operation set
from the snapshot, then commit it against the (possibly concurrently
modified) live document. -/
def advanceAttempt (t : AdvanceTarget) (snap commit : MachineView) : AttemptOutcome :=
  match advanceBuild t snap with
  | .failed e => .done (.error e)
  | .noOperations => .done (.ok snap.life)
  | .ops names =>
      if commitOK t names commit then .done (.ok t.toLife) else .aborted

/-- Modelled from the spec (section 4.3 contention policy): the retry budget
of the transaction runner — three consecutive defeated attempts fail with
the distinguished contention error. -/
def txnAttempts : Nat := 3

/-- Modelled from the spec: the retry engine driving a lifecycle advance.
Each list element is the pair (snapshot at build time, live document at
commit time) of one attempt; when every attempt is defeated the operation
fails with the contention error. -/
def advanceLifecycle (t : AdvanceTarget) (mid : String) :
    List (MachineView × MachineView) → Except LifecycleError Life
  | [] => .error (.contention mid)
  | (s, c) :: rest =>
      match advanceAttempt t s c with
      | .done r => r
      | .aborted => advanceLifecycle t mid rest

/-- Destroy in the race-free case: every attempt sees the same document at
build and commit time. -/
def destroy (v : MachineView) : Except LifecycleError Life :=
  advanceLifecycle .dying v.id (List.replicate txnAttempts (v, v))

/-- EnsureDead in the race-free case. -/
def ensureDead (v : MachineView) : Except LifecycleError Life :=
  advanceLifecycle .dead v.id (List.replicate txnAttempts (v, v))

/-- Destroy as a state transition: on success the machine's life advances,
on a business-rule error the document is untouched. -/
def destroyM (v : MachineView) : MachineView × Option LifecycleError :=
  match destroy v with
  | .ok l => ({ v with life := l }, none)
  | .error e => (v, some e)

/-- EnsureDead as a state transition. -/
def ensureDeadM (v : MachineView) : MachineView × Option LifecycleError :=
  match ensureDead v with
  | .ok l => ({ v with life := l }, none)
  | .error e => (v, some e)

/-- Modelled from the spec: ForceDestroy refuses to build destruction
operations for a machine carrying the ManageModel job (manager-machine
error, message without the machine id). -/
def forceDestroy (v : MachineView) : Except LifecycleError Unit :=
  if MachineJob.manageModel ∈ v.jobs then .error .managerMachine else .ok ()

theorem advance_err_of_build (t : AdvanceTarget) (v : MachineView) (e : LifecycleError)
    (hb : advanceBuild t v = .failed e) :
    advanceLifecycle t v.id (List.replicate txnAttempts (v, v)) = .error e := by
  simp [txnAttempts, List.replicate, advanceLifecycle, advanceAttempt, hb]

theorem destroy_err_of_build (v : MachineView) (e : LifecycleError)
    (hb : advanceBuild .dying v = .failed e) : destroy v = .error e :=
  advance_err_of_build .dying v e hb

theorem ensureDead_err_of_build (v : MachineView) (e : LifecycleError)
    (hb : advanceBuild .dead v = .failed e) : ensureDead v = .error e :=
  advance_err_of_build .dead v e hb

theorem advance_ok_of_build (t : AdvanceTarget) (v : MachineView)
    (hb : advanceBuild t v = .ops (v.principals.map UnitInfo.name))
    (hcm : commitOK t (v.principals.map UnitInfo.name) v) :
    advanceLifecycle t v.id (List.replicate txnAttempts (v, v)) = .ok t.toLife := by
  simp [txnAttempts, List.replicate, advanceLifecycle, advanceAttempt, hb, hcm]

theorem advanceBuild_ops (t : AdvanceTarget) (v : MachineView)
    (hj : MachineJob.manageModel ∉ v.jobs) (hl : lifeNoOp t v.life = false)
    (hv : v.hasVote = false) (hc : v.containers = [])
    (hu : v.principals.any unitBlocks = false) :
    advanceBuild t v = .ops (v.principals.map UnitInfo.name) := by
  simp [advanceBuild, hj, hl, hv, hc, hu]

theorem commitOK_self (t : AdvanceTarget) (v : MachineView)
    (hj : MachineJob.manageModel ∉ v.jobs) (hla : lifeAssert t v.life = true)
    (hv : v.hasVote = false) (hc : v.containers = []) :
    commitOK t (v.principals.map UnitInfo.name) v :=
  ⟨hj, hv, hla, rfl, hc⟩

theorem destroy_ok_of (v : MachineView)
    (hj : MachineJob.manageModel ∉ v.jobs) (hl : v.life = Life.alive)
    (hv : v.hasVote = false) (hc : v.containers = [])
    (hu : v.principals.any unitBlocks = false) :
    destroy v = .ok Life.dying := by
  have hb := advanceBuild_ops .dying v hj (by simp [lifeNoOp, hl]) hv hc hu
  have hcm := commitOK_self .dying v hj (by simp [lifeAssert, hl]) hv hc
  exact advance_ok_of_build .dying v hb hcm

/-- C1: for every machine whose Jobs include ManageModel, Destroy,
ForceDestroy and EnsureDead all fail with the required-by-model error,
whatever the rest of the machine's state, the document is left untouched
(so such a machine's Life never leaves Alive), and the error messages are
the ones the test suite asserts. -/
theorem manageModel_blocks_lifecycle (v : MachineView)
    (h : MachineJob.manageModel ∈ v.jobs) :
    destroyM v = (v, some (.requiredByModel v.id)) ∧
    ensureDeadM v = (v, some (.requiredByModel v.id)) ∧
    forceDestroy v = .error .managerMachine ∧
    (destroyM v).1.life = v.life ∧ (ensureDeadM v).1.life = v.life ∧
    LifecycleError.message (.requiredByModel v.id) =
      "machine " ++ v.id ++ " is required by the model" ∧
    LifecycleError.message .managerMachine = "machine is required by the model" := by
  have hb1 : advanceBuild .dying v = .failed (.requiredByModel v.id) := by
    simp [advanceBuild, h]
  have hb2 : advanceBuild .dead v = .failed (.requiredByModel v.id) := by
    simp [advanceBuild, h]
  have hd := destroy_err_of_build v _ hb1
  have he := ensureDead_err_of_build v _ hb2
  refine ⟨?_, ?_, ?_, ?_, ?_, rfl, rfl⟩ <;>
    simp [destroyM, ensureDeadM, forceDestroy, hd, he, h]

theorem manageModel_blocks_lifecycle_w :
    (MachineJob.manageModel ∈ [MachineJob.manageModel]) ∧
    destroyM { id := "0", jobs := [MachineJob.manageModel], life := Life.alive,
               hasVote := false, principals := [], containers := [] } =
      ({ id := "0", jobs := [MachineJob.manageModel], life := Life.alive,
         hasVote := false, principals := [], containers := [] },
       some (.requiredByModel "0")) :=
  ⟨by decide,
   (manageModel_blocks_lifecycle
     { id := "0", jobs := [MachineJob.manageModel], life := Life.alive,
       hasVote := false, principals := [], containers := [] } (by decide)).1⟩

/-- C2 counterexample: the claim "for every machine that has a principal unit
assigned, Destroy() fails" is defeated by a machine whose single assigned
principal unit is already Dying — the test suite requires such a Destroy to
succeed and advance the machine to Dying. -/
theorem assignedUnit_destroy_counterexample :
    ([({ name := "wordpress/0", unitLife := Life.dying, appLife := Life.alive } :
        UnitInfo)] ≠ ([] : List UnitInfo)) ∧
    destroyM { id := "1", jobs := [MachineJob.hostUnits], life := Life.alive,
               hasVote := false,
               principals := [{ name := "wordpress/0", unitLife := Life.dying,
                                appLife := Life.alive }],
               containers := [] } =
      ({ id := "1", jobs := [MachineJob.hostUnits], life := Life.dying,
         hasVote := false,
         principals := [{ name := "wordpress/0", unitLife := Life.dying,
                          appLife := Life.alive }],
         containers := [] }, none) := by
  constructor
  · decide
  · have h := destroy_ok_of
      { id := "1", jobs := [MachineJob.hostUnits], life := Life.alive,
        hasVote := false,
        principals := [{ name := "wordpress/0", unitLife := Life.dying,
                         appLife := Life.alive }],
        containers := [] }
      (by decide) rfl rfl rfl (by decide)
    simp [destroyM, h]

/-- C2 (amended): for every ordinary host machine (no ManageModel job, no
vote, no containers) whose assigned principal unit is fully Alive (the unit
and its application), Destroy and EnsureDead fail with the assigned-units
error naming the unit, the machine stays Alive, and once the unit is
unassigned a subsequent Destroy succeeds and moves Life to Dying. -/
theorem aliveUnit_blocks_destroy (v : MachineView) (u : UnitInfo)
    (hj : MachineJob.manageModel ∉ v.jobs) (hl : v.life = Life.alive)
    (hv : v.hasVote = false) (hc : v.containers = [])
    (hp : v.principals = [u]) (hu : u.unitLife = Life.alive)
    (ha : u.appLife = Life.alive) :
    destroyM v = (v, some (.hasAssignedUnits v.id [u.name])) ∧
    ensureDeadM v = (v, some (.hasAssignedUnits v.id [u.name])) ∧
    (destroyM v).1.life = Life.alive ∧
    LifecycleError.message (.hasAssignedUnits v.id [u.name]) =
      "machine " ++ v.id ++ " has unit \"" ++ u.name ++ "\" assigned" ∧
    destroyM { v with principals := [] } =
      ({ v with principals := [], life := Life.dying }, none) := by
  have hany : v.principals.any unitBlocks = true := by
    simp [hp, unitBlocks, hu, ha]
  have hnames : v.principals.map UnitInfo.name = [u.name] := by simp [hp]
  have hb1 : advanceBuild .dying v = .failed (.hasAssignedUnits v.id [u.name]) := by
    simp [advanceBuild, hj, lifeNoOp, hl, hv, hc, hany, hnames]
  have hb2 : advanceBuild .dead v = .failed (.hasAssignedUnits v.id [u.name]) := by
    simp [advanceBuild, hj, lifeNoOp, hl, hv, hc, hany, hnames]
  have hd := destroy_err_of_build v _ hb1
  have he := ensureDead_err_of_build v _ hb2
  have hok : destroy { v with principals := [] } = .ok Life.dying :=
    destroy_ok_of { v with principals := [] } (by simpa using hj) (by simpa using hl)
      (by simpa using hv) (by simpa using hc) (by simp)
  refine ⟨?_, ?_, ?_, rfl, ?_⟩
  · simp [destroyM, hd]
  · simp [ensureDeadM, he]
  · simp [destroyM, hd, hl]
  · simp [destroyM, hok]

theorem aliveUnit_blocks_destroy_w :
    destroyM { id := "1", jobs := [MachineJob.hostUnits], life := Life.alive,
               hasVote := false,
               principals := [{ name := "wordpress/0", unitLife := Life.alive,
                                appLife := Life.alive }],
               containers := [] } =
      ({ id := "1", jobs := [MachineJob.hostUnits], life := Life.alive,
         hasVote := false,
         principals := [{ name := "wordpress/0", unitLife := Life.alive,
                          appLife := Life.alive }],
         containers := [] },
       some (.hasAssignedUnits "1" ["wordpress/0"])) :=
  (aliveUnit_blocks_destroy
    { id := "1", jobs := [MachineJob.hostUnits], life := Life.alive,
      hasVote := false,
      principals := [{ name := "wordpress/0", unitLife := Life.alive,
                       appLife := Life.alive }],
      containers := [] }
    { name := "wordpress/0", unitLife := Life.alive, appLife := Life.alive }
    (by decide) rfl rfl rfl rfl rfl rfl).1

/-- C3: for every ordinary host machine (no ManageModel job, no vote) that
is Alive and hosts at least one child container, Destroy fails with the
container-listing error naming exactly the live children, EnsureDead fails
with the same error, the machine stays Alive, and — provided no assigned
principal unit still blocks — once all children are removed Destroy
succeeds. -/
theorem containers_block_destroy (v : MachineView)
    (hj : MachineJob.manageModel ∉ v.jobs) (hl : v.life = Life.alive)
    (hv : v.hasVote = false) (hc : v.containers ≠ []) :
    destroyM v = (v, some (.hasContainers v.id v.containers)) ∧
    ensureDeadM v = (v, some (.hasContainers v.id v.containers)) ∧
    (destroyM v).1.life = Life.alive ∧
    LifecycleError.message (.hasContainers v.id v.containers) =
      "machine " ++ v.id ++ " is hosting containers \"" ++
        String.intercalate "," v.containers ++ "\"" ∧
    (v.principals.any unitBlocks = false →
      destroyM { v with containers := [] } =
        ({ v with containers := [], life := Life.dying }, none)) := by
  have hb1 : advanceBuild .dying v = .failed (.hasContainers v.id v.containers) := by
    simp [advanceBuild, hj, lifeNoOp, hl, hv, hc]
  have hb2 : advanceBuild .dead v = .failed (.hasContainers v.id v.containers) := by
    simp [advanceBuild, hj, lifeNoOp, hl, hv, hc]
  have hd := destroy_err_of_build v _ hb1
  have he := ensureDead_err_of_build v _ hb2
  refine ⟨?_, ?_, ?_, rfl, ?_⟩
  · simp [destroyM, hd]
  · simp [ensureDeadM, he]
  · simp [destroyM, hd, hl]
  · intro hu
    have hok : destroy { v with containers := [] } = .ok Life.dying :=
      destroy_ok_of { v with containers := [] } (by simpa using hj)
        (by simpa using hl) (by simpa using hv) (by simp) (by simpa using hu)
    simp [destroyM, hok]

theorem containers_block_destroy_w :
    destroyM { id := "1", jobs := [MachineJob.hostUnits], life := Life.alive,
               hasVote := false, principals := [],
               containers := ["1/lxc/0"] } =
      ({ id := "1", jobs := [MachineJob.hostUnits], life := Life.alive,
         hasVote := false, principals := [], containers := ["1/lxc/0"] },
       some (.hasContainers "1" ["1/lxc/0"])) ∧
    LifecycleError.message (.hasContainers "1" ["1/lxc/0"]) =
      "machine 1 is hosting containers \"1/lxc/0\"" :=
  ⟨(containers_block_destroy
      { id := "1", jobs := [MachineJob.hostUnits], life := Life.alive,
        hasVote := false, principals := [], containers := ["1/lxc/0"] }
      (by decide) rfl rfl (by decide)).1,
   rfl⟩

/-- C10: if every principal unit assigned to an ordinary host machine is
already being destroyed (the unit itself or its whole application is
Dying), Destroy succeeds despite the units still being assigned and the
machine's Life advances to Dying. -/
theorem destroy_with_dying_units (v : MachineView)
    (hj : MachineJob.manageModel ∉ v.jobs) (hl : v.life = Life.alive)
    (hv : v.hasVote = false) (hc : v.containers = [])
    (hp : v.principals ≠ [])
    (hu : ∀ u ∈ v.principals, u.unitLife = Life.dying ∨ u.appLife = Life.dying) :
    destroyM v = ({ v with life := Life.dying }, none) := by
  have hany : v.principals.any unitBlocks = false := by
    rw [List.any_eq_false]
    intro u hu'
    rcases hu u hu' with h | h <;> simp [unitBlocks, h]
  have hok := destroy_ok_of v hj hl hv hc hany
  simp [destroyM, hok]

theorem destroy_with_dying_units_w :
    destroyM { id := "1", jobs := [MachineJob.hostUnits], life := Life.alive,
               hasVote := false,
               principals := [{ name := "wordpress/0", unitLife := Life.alive,
                                appLife := Life.dying }],
               containers := [] } =
      ({ id := "1", jobs := [MachineJob.hostUnits], life := Life.dying,
         hasVote := false,
         principals := [{ name := "wordpress/0", unitLife := Life.alive,
                          appLife := Life.dying }],
         containers := [] }, none) :=
  destroy_with_dying_units
    { id := "1", jobs := [MachineJob.hostUnits], life := Life.alive,
      hasVote := false,
      principals := [{ name := "wordpress/0", unitLife := Life.alive,
                       appLife := Life.dying }],
      containers := [] }
    (by decide) rfl rfl rfl (by decide) (by decide)

theorem advanceLifecycle_all_abort (t : AdvanceTarget) (mid : String) :
    ∀ attempts : List (MachineView × MachineView),
      (∀ p ∈ attempts, advanceAttempt t p.1 p.2 = .aborted) →
      advanceLifecycle t mid attempts = .error (.contention mid)
  | [], _ => rfl
  | (s, c) :: rest, h => by
    have h1 : advanceAttempt t s c = .aborted := h (s, c) (List.mem_cons_self _ _)
    simp only [advanceLifecycle, h1]
    exact advanceLifecycle_all_abort t mid rest fun p hp => h p (List.mem_cons_of_mem _ hp)

/-- C4: if every one of the transaction runner's three attempts of a Destroy
is defeated by a concurrent modification that re-introduces a blocking
condition (here: a snapshot with no principal units whose commit-time
document has acquired one), the operation fails with the distinguished
contention error, whose message ends in "state changing too quickly; try
again soon", instead of retrying further. -/
theorem destroy_contention (mid : String)
    (attempts : List (MachineView × MachineView))
    (hlen : attempts.length = txnAttempts)
    (hdef : ∀ s c : MachineView, (s, c) ∈ attempts →
      MachineJob.manageModel ∉ s.jobs ∧ s.life = Life.alive ∧
      s.hasVote = false ∧ s.principals = [] ∧ s.containers = [] ∧
      c.principals ≠ []) :
    advanceLifecycle .dying mid attempts = .error (.contention mid) ∧
    LifecycleError.message (.contention mid) =
      "machine " ++ mid ++
        " cannot advance lifecycle: state changing too quickly; try again soon" := by
  refine ⟨advanceLifecycle_all_abort .dying mid attempts ?_, rfl⟩
  rintro ⟨s, c⟩ hp
  obtain ⟨hj, hl, hv, hps, hcs, hcp⟩ := hdef s c hp
  have hb : advanceBuild .dying s = .ops [] := by
    have := advanceBuild_ops .dying s hj (by simp [lifeNoOp, hl]) hv hcs
      (by simp [hps])
    simpa [hps] using this
  have hcm : ¬ commitOK .dying [] c := by
    intro hcm
    exact hcp (List.map_eq_nil_iff.mp hcm.2.2.2.1)
  simp [advanceAttempt, hb, hcm]

theorem destroy_contention_w :
    advanceLifecycle .dying "1"
      [({ id := "1", jobs := [MachineJob.hostUnits], life := Life.alive,
          hasVote := false, principals := [], containers := [] },
        { id := "1", jobs := [MachineJob.hostUnits], life := Life.alive,
          hasVote := false,
          principals := [{ name := "wordpress/0", unitLife := Life.alive,
                           appLife := Life.alive }],
          containers := [] }),
       ({ id := "1", jobs := [MachineJob.hostUnits], life := Life.alive,
          hasVote := false, principals := [], containers := [] },
        { id := "1", jobs := [MachineJob.hostUnits], life := Life.alive,
          hasVote := false,
          principals := [{ name := "wordpress/0", unitLife := Life.alive,
                           appLife := Life.alive }],
          containers := [] }),
       ({ id := "1", jobs := [MachineJob.hostUnits], life := Life.alive,
          hasVote := false, principals := [], containers := [] },
        { id := "1", jobs := [MachineJob.hostUnits], life := Life.alive,
          hasVote := false,
          principals := [{ name := "wordpress/0", unitLife := Life.alive,
                           appLife := Life.alive }],
          containers := [] })] = .error (.contention "1") :=
  (destroy_contention "1" _ (by decide) (by
    intro s c hp
    simp only [List.mem_cons, List.not_mem_nil, or_false, Prod.mk.injEq] at hp
    rcases hp with ⟨hs, hc⟩ | ⟨hs, hc⟩ | ⟨hs, hc⟩ <;> subst hs <;> subst hc <;>
      refine ⟨by decide, rfl, rfl, rfl, rfl, by decide⟩)).1

/-- The machine document as Remove sees it: identity, life, and whether the
document still exists in the collection. -/
structure MachineDocState where
  mid : String
  life : Life
  present : Bool
deriving DecidableEq, Repr

/-- Modelled from the spec (section 4.3): Remove is only legal from Dead;
removing an already-removed machine is a no-op success; calling Remove on a
non-Dead machine fails with the business-rule error "machine is not dead". -/
def remove (s : MachineDocState) : MachineDocState × Option LifecycleError :=
  if s.present = false then (s, none)
  else if s.life ≠ Life.dead then (s, some (.removeNotDead s.mid))
  else ({ s with present := false }, none)

/-- C5: Remove succeeds exactly when the machine is Dead or already removed —
on an Alive or Dying machine it fails with the "machine is not dead"
business-rule error and leaves the document in place, on a Dead machine it
removes the document, and a second Remove after a successful one is a
silent no-op success (idempotence). -/
theorem remove_only_when_dead (s : MachineDocState) :
    (s.present = true → s.life ≠ Life.dead →
      remove s = (s, some (.removeNotDead s.mid)) ∧
      LifecycleError.message (.removeNotDead s.mid) =
        "cannot remove machine " ++ s.mid ++ ": machine is not dead") ∧
    (s.present = true → s.life = Life.dead →
      remove s = ({ s with present := false }, none) ∧
      remove { s with present := false } = ({ s with present := false }, none)) ∧
    (s.present = false → remove s = (s, none)) := by
  refine ⟨fun hp hl => ⟨?_, rfl⟩, fun hp hl => ⟨?_, ?_⟩, fun hp => ?_⟩
  · simp [remove, hp, hl]
  · simp [remove, hp, hl]
  · simp [remove, hp, hl]
  · simp [remove, hp]

theorem remove_only_when_dead_w :
    remove { mid := "1", life := Life.alive, present := true } =
      ({ mid := "1", life := Life.alive, present := true },
       some (.removeNotDead "1")) ∧
    remove { mid := "1", life := Life.dead, present := true } =
      ({ mid := "1", life := Life.dead, present := false }, none) ∧
    remove { mid := "1", life := Life.dead, present := false } =
      ({ mid := "1", life := Life.dead, present := false }, none) :=
  ⟨((remove_only_when_dead { mid := "1", life := Life.alive, present := true }).1
      rfl (by decide)).1,
   ((remove_only_when_dead { mid := "1", life := Life.dead, present := true }).2.1
      rfl rfl).1,
   ((remove_only_when_dead { mid := "1", life := Life.dead, present := true }).2.1
      rfl rfl).2⟩

/-- A reboot-flag failure: the not-found error surfaced when the conditional
operation set is defeated because the machine is Dead. -/
inductive RebootError where
  | notFound
deriving DecidableEq, Repr

/-- Modelled from the spec (section 4.3 reboot sub-state machine): SetRebootFlag
submits a conditional operation asserting the machine document is not Dead;
the assertion is evaluated against the machine's life at commit time, and an
aborted operation surfaces as a not-found error, leaving the stored flag
unchanged.  Reboot flags therefore apply only to live machines, also when
the machine dies concurrently between snapshot and commit. -/
def setRebootFlag (commitLife : Life) (storedFlag flag : Bool) :
    Except RebootError Unit × Bool :=
  if commitLife = Life.dead then (.error .notFound, storedFlag)
  else (.ok (), flag)

/-- C9: for every machine that is Dead at commit time — including one that
died concurrently after the caller's snapshot was taken — SetRebootFlag
fails with the not-found error and the stored flag is unchanged. -/
theorem setRebootFlag_dead_notFound (commitLife : Life) (storedFlag flag : Bool)
    (h : commitLife = Life.dead) :
    setRebootFlag commitLife storedFlag flag = (.error .notFound, storedFlag) := by
  simp [setRebootFlag, h]

theorem setRebootFlag_dead_notFound_w :
    setRebootFlag Life.dead false true = (.error .notFound, false) :=
  setRebootFlag_dead_notFound Life.dead false true rfl

/-- Lexicographic comparison of natural-number lists, used as the
deterministic total order backing address sorting. -/
def natListLe : List Nat → List Nat → Bool
  | [], _ => true
  | _ :: _, [] => false
  | a :: as, b :: bs => if a < b then true else if b < a then false else natListLe as bs

theorem natListLe_total : ∀ x y : List Nat, natListLe x y = true ∨ natListLe y x = true
  | [], _ => Or.inl rfl
  | _ :: _, [] => Or.inr rfl
  | a :: as, b :: bs => by
    by_cases hab : a < b
    · exact Or.inl (by simp [natListLe, hab])
    · by_cases hba : b < a
      · exact Or.inr (by simp [natListLe, hba])
      · have : a = b := Nat.le_antisymm (Nat.not_lt.mp hba) (Nat.not_lt.mp hab)
        subst this
        rcases natListLe_total as bs with h | h
        · exact Or.inl (by simp [natListLe, h])
        · exact Or.inr (by simp [natListLe, h])

theorem natListLe_trans : ∀ x y z : List Nat,
    natListLe x y = true → natListLe y z = true → natListLe x z = true
  | [], _, _, _, _ => rfl
  | _ :: _, [], _, h, _ => by simp [natListLe] at h
  | _ :: _, _ :: _, [], _, h => by simp [natListLe] at h
  | a :: as, b :: bs, c :: cs, h1, h2 => by
    simp only [natListLe] at h1 h2 ⊢
    split_ifs at h1 h2 ⊢ <;> try omega
    all_goals try rfl
    all_goals try exact natListLe_trans as bs cs h1 h2

theorem natListLe_antisymm : ∀ x y : List Nat,
    natListLe x y = true → natListLe y x = true → x = y
  | [], [], _, _ => rfl
  | [], _ :: _, _, h => by simp [natListLe] at h
  | _ :: _, [], h, _ => by simp [natListLe] at h
  | a :: as, b :: bs, h1, h2 => by
    simp only [natListLe] at h1 h2
    split_ifs at h1 h2 <;> try omega
    have hab : a = b := by omega
    subst hab
    rw [natListLe_antisymm as bs h1 h2]

/-- Modelled from the spec: the scope of a network address — public routable,
cloud-local, machine-local, link-local, or unknown. -/
inductive AddressScope where
  | public
  | cloudLocal
  | machineLocal
  | linkLocal
  | unknownScope
deriving DecidableEq, Repr

/-- Modelled from the spec: the kind of a network address value. -/
inductive AddressType where
  | hostname
  | ipv4
  | ipv6
deriving DecidableEq, Repr

/-- Modelled from the spec: a network address, as stored on the machine
document. -/
structure Address where
  value : String
  addrType : AddressType
  scope : AddressScope
deriving DecidableEq, Repr

/-- Modelled from the spec (section 4.4): the fixed preference order — public
routable first, then hostnames (with "localhost" after other hostnames),
then cloud-local, machine-local and link-local, IPv4 before IPv6 inside a
tier (the prefer-ipv6 toggle off), unknown scopes last. -/
def Address.sortOrder (a : Address) : Nat :=
  match a.addrType with
  | .hostname => if a.value == "localhost" then 0x11 else 0x10
  | .ipv4 =>
    match a.scope with
    | .public => 0x00
    | .cloudLocal => 0x20
    | .machineLocal => 0x40
    | .linkLocal => 0x80
    | .unknownScope => 0xFF
  | .ipv6 =>
    match a.scope with
    | .public => 0x01
    | .cloudLocal => 0x21
    | .machineLocal => 0x41
    | .linkLocal => 0x81
    | .unknownScope => 0xFF

def scopeIdx : AddressScope → Nat
  | .public => 0
  | .cloudLocal => 1
  | .machineLocal => 2
  | .linkLocal => 3
  | .unknownScope => 4

def typeIdx : AddressType → Nat
  | .hostname => 0
  | .ipv4 => 1
  | .ipv6 => 2

/-- The sort key of an address: the preference order first, then a canonical
deterministic tie-break on the remaining fields (the spec requires ties to
be broken deterministically and leaves the exact tie-break
implementation-defined). -/
def Address.key (a : Address) : List Nat :=
  a.sortOrder :: typeIdx a.addrType :: scopeIdx a.scope :: a.value.data.map Char.toNat

/-- The total order on addresses used for storage. -/
def addrLe (a b : Address) : Prop := natListLe a.key b.key = true

instance : DecidableRel addrLe := fun a b => inferInstanceAs (Decidable (_ = true))

instance : IsTotal Address addrLe := ⟨fun a b => natListLe_total a.key b.key⟩

instance : IsTrans Address addrLe := ⟨fun a b c => natListLe_trans a.key b.key c.key⟩

theorem scopeIdx_inj {x y : AddressScope} (h : scopeIdx x = scopeIdx y) : x = y := by
  cases x <;> cases y <;> simp_all [scopeIdx]

theorem typeIdx_inj {x y : AddressType} (h : typeIdx x = typeIdx y) : x = y := by
  cases x <;> cases y <;> simp_all [typeIdx]

theorem addrKey_inj {a b : Address} (h : a.key = b.key) : a = b := by
  cases a with
  | mk va ta sa =>
    cases b with
    | mk vb tb sb =>
      simp only [Address.key, List.cons.injEq] at h
      obtain ⟨-, ht, hs, hv⟩ := h
      have hdata : va.data = vb.data :=
        List.map_injective_iff.mpr (fun x y hxy => Char.ext (UInt32.ext hxy)) hv
      have : va = vb := by
        cases va
        cases vb
        simp_all
      simp [this, typeIdx_inj ht, scopeIdx_inj hs]

instance : IsAntisymm Address addrLe :=
  ⟨fun _ _ h1 h2 => addrKey_inj (natListLe_antisymm _ _ h1 h2)⟩

/-- Deduplication worker: drop any address whose value was already seen. -/
def dedupByValueAux (seen : List String) : List Address → List Address
  | [] => []
  | a :: rest =>
      if a.value ∈ seen then dedupByValueAux seen rest
      else a :: dedupByValueAux (a.value :: seen) rest

/-- Modelled from the spec (section 4.4): deduplication of an address list by
address value, keeping the first occurrence. -/
def dedupByValue (l : List Address) : List Address := dedupByValueAux [] l

/-- Modelled from the spec (section 4.4): an incoming address list is
deduplicated, then sorted by the fixed preference order (with deterministic
tie-breaking) before storage. -/
def storedAddresses (input : List Address) : List Address :=
  List.insertionSort addrLe (dedupByValue input)

/-- The two independently-set address lists of a machine document. -/
structure AddressState where
  providerAddresses : List Address
  machineAddresses : List Address
deriving DecidableEq, Repr

/-- Modelled from the spec: SetProviderAddresses replaces the stored provider
address list with the deduplicated, sorted input. -/
def setProviderAddresses (s : AddressState) (input : List Address) : AddressState :=
  { s with providerAddresses := storedAddresses input }

/-- Modelled from the spec: SetMachineAddresses replaces the stored machine
address list with the deduplicated, sorted input. -/
def setMachineAddresses (s : AddressState) (input : List Address) : AddressState :=
  { s with machineAddresses := storedAddresses input }

/-- Modelled from the spec (section 4.4): the merged view starts from
ProviderAddresses in stored order, then appends the MachineAddresses
entries whose value is not already present among the provider addresses,
in their stored order. -/
def mergedAddresses (s : AddressState) : List Address :=
  s.providerAddresses ++
    s.machineAddresses.filter fun a =>
      !(s.providerAddresses.any fun p => p.value == a.value)

/-- The failure of an address lookup on a machine with no suitable address. -/
inductive NoAddressError where
  | noAddress
deriving DecidableEq, Repr

/-- Modelled from the spec: internal (private) address selection prefers the
first cloud-local address of the list, falling back to the first public or
unknown-scoped address. -/
def selectInternalAddress (addrs : List Address) : Option Address :=
  match addrs.find? fun a => a.scope == AddressScope.cloudLocal with
  | some a => some a
  | none =>
      addrs.find? fun a =>
        a.scope == AddressScope.public || a.scope == AddressScope.unknownScope

/-- Modelled from the spec (section 4.4): PrivateAddress gives provider
addresses precedence wholesale — when any provider address is stored, the
private address is selected only among the provider addresses, even if a
machine address would score higher by scope; only when no provider address
exists is it selected among the machine addresses. -/
def privateAddress (s : AddressState) : Except NoAddressError Address :=
  match selectInternalAddress
      (if s.providerAddresses.isEmpty then s.machineAddresses
       else s.providerAddresses) with
  | some a => .ok a
  | none => .error .noAddress

theorem selectInternalAddress_mem {l : List Address} {a : Address}
    (h : selectInternalAddress l = some a) : a ∈ l := by
  unfold selectInternalAddress at h
  cases hf : l.find? fun x => x.scope == AddressScope.cloudLocal with
  | some b =>
    rw [hf] at h
    cases h
    exact List.mem_of_find?_eq_some hf
  | none =>
    rw [hf] at h
    exact List.mem_of_find?_eq_some h

/-- C6: whenever the stored ProviderAddresses list is non-empty,
PrivateAddress is computed from ProviderAddresses alone — the machine
address list is irrelevant and any address returned comes from the provider
list; only when no provider address exists is the private address chosen
from MachineAddresses. -/
theorem privateAddress_prefers_provider (s : AddressState) :
    (s.providerAddresses ≠ [] →
      (∀ ms : List Address,
        privateAddress { providerAddresses := s.providerAddresses,
                         machineAddresses := ms } = privateAddress s) ∧
      ∀ a : Address, privateAddress s = .ok a → a ∈ s.providerAddresses) ∧
    (s.providerAddresses = [] →
      ∀ a : Address, privateAddress s = .ok a → a ∈ s.machineAddresses) := by
  constructor
  · intro hne
    have hie : s.providerAddresses.isEmpty = false := by
      cases hp : s.providerAddresses with
      | nil => exact absurd hp hne
      | cons x xs => rfl
    constructor
    · intro ms
      simp [privateAddress, hie]
    · intro a ha
      rw [privateAddress, hie] at ha
      simp only [Bool.false_eq_true, if_false] at ha
      cases hf : selectInternalAddress s.providerAddresses with
      | none => rw [hf] at ha; cases ha
      | some b =>
        rw [hf] at ha
        cases ha
        exact selectInternalAddress_mem hf
  · intro he a ha
    rw [privateAddress, he] at ha
    simp only [List.isEmpty_nil, if_true] at ha
    cases hf : selectInternalAddress s.machineAddresses with
    | none => rw [hf] at ha; cases ha
    | some b =>
      rw [hf] at ha
      cases ha
      exact selectInternalAddress_mem hf

theorem privateAddress_prefers_provider_w :
    (([{ value := "10.0.0.1", addrType := AddressType.ipv4,
         scope := AddressScope.cloudLocal }] : List Address) ≠ []) ∧
    privateAddress
      { providerAddresses := [{ value := "10.0.0.1", addrType := AddressType.ipv4,
                                scope := AddressScope.cloudLocal }],
        machineAddresses := [{ value := "8.8.8.8", addrType := AddressType.ipv4,
                               scope := AddressScope.public },
                             { value := "10.0.0.2", addrType := AddressType.ipv4,
                               scope := AddressScope.cloudLocal }] } =
      privateAddress
        { providerAddresses := [{ value := "10.0.0.1", addrType := AddressType.ipv4,
                                  scope := AddressScope.cloudLocal }],
          machineAddresses := [] } :=
  ⟨by decide,
   (privateAddress_prefers_provider
      { providerAddresses := [{ value := "10.0.0.1", addrType := AddressType.ipv4,
                                scope := AddressScope.cloudLocal }],
        machineAddresses := [] } |>.1 (by decide)).1
     [{ value := "8.8.8.8", addrType := AddressType.ipv4,
        scope := AddressScope.public },
      { value := "10.0.0.2", addrType := AddressType.ipv4,
        scope := AddressScope.cloudLocal }]⟩

theorem dedupByValueAux_eq_of_nodup :
    ∀ (seen : List String) (l : List Address),
      (l.map Address.value).Nodup → (∀ a ∈ l, a.value ∉ seen) →
      dedupByValueAux seen l = l
  | _, [], _, _ => rfl
  | seen, a :: rest, h, hseen => by
    rw [List.map_cons, List.nodup_cons] at h
    have ha : a.value ∉ seen := hseen a (List.mem_cons_self a rest)
    rw [dedupByValueAux, if_neg ha,
      dedupByValueAux_eq_of_nodup (a.value :: seen) rest h.2 ?_]
    intro b hb
    rw [List.mem_cons]
    rintro (hv | hv)
    · exact h.1 (hv ▸ List.mem_map_of_mem Address.value hb)
    · exact hseen b (List.mem_cons_of_mem a hb) hv

theorem dedupByValue_eq_of_nodup (l : List Address)
    (h : (l.map Address.value).Nodup) : dedupByValue l = l :=
  dedupByValueAux_eq_of_nodup [] l h fun _ _ => List.not_mem_nil _

/-- C7: SetProviderAddresses and SetMachineAddresses store the incoming list
deduplicated and sorted by the fixed preference order with deterministic
tie-breaking — so for any two argument orders of the same address set the
stored list is sorted, is a permutation of the input set, and is the same
deterministic permutation, and hence the merged Addresses view agrees as
well. -/
theorem storedAddresses_deterministic (p q : List Address)
    (hperm : p.Perm q) (hnd : (p.map Address.value).Nodup) :
    storedAddresses p = storedAddresses q ∧
    (storedAddresses p).Sorted addrLe ∧
    (storedAddresses p).Perm p ∧
    ∀ s : AddressState,
      setProviderAddresses s p = setProviderAddresses s q ∧
      setMachineAddresses s p = setMachineAddresses s q ∧
      mergedAddresses (setProviderAddresses s p) =
        mergedAddresses (setProviderAddresses s q) := by
  have hndq : (q.map Address.value).Nodup := ((hperm.map Address.value).nodup_iff).mp hnd
  have hdp : dedupByValue p = p := dedupByValue_eq_of_nodup p hnd
  have hdq : dedupByValue q = q := dedupByValue_eq_of_nodup q hndq
  have hs : storedAddresses p = storedAddresses q := by
    unfold storedAddresses
    rw [hdp, hdq]
    exact List.eq_of_perm_of_sorted
      ((List.perm_insertionSort addrLe p).trans
        (hperm.trans (List.perm_insertionSort addrLe q).symm))
      (List.sorted_insertionSort addrLe p) (List.sorted_insertionSort addrLe q)
  refine ⟨hs, List.sorted_insertionSort addrLe _, ?_, fun s => ⟨?_, ?_, ?_⟩⟩
  · unfold storedAddresses
    rw [hdp]
    exact List.perm_insertionSort addrLe p
  · simp [setProviderAddresses, hs]
  · simp [setMachineAddresses, hs]
  · simp [setProviderAddresses, hs]

theorem storedAddresses_deterministic_w :
    ([({ value := "127.0.0.1", addrType := AddressType.ipv4,
         scope := AddressScope.machineLocal } : Address),
      { value := "8.8.8.8", addrType := AddressType.ipv4,
        scope := AddressScope.public }].Perm
      [{ value := "8.8.8.8", addrType := AddressType.ipv4,
         scope := AddressScope.public },
       { value := "127.0.0.1", addrType := AddressType.ipv4,
         scope := AddressScope.machineLocal }]) ∧
    storedAddresses
      [{ value := "127.0.0.1", addrType := AddressType.ipv4,
         scope := AddressScope.machineLocal },
       { value := "8.8.8.8", addrType := AddressType.ipv4,
         scope := AddressScope.public }] =
      storedAddresses
        [{ value := "8.8.8.8", addrType := AddressType.ipv4,
           scope := AddressScope.public },
         { value := "127.0.0.1", addrType := AddressType.ipv4,
           scope := AddressScope.machineLocal }] :=
  ⟨by decide,
   (storedAddresses_deterministic
     [{ value := "127.0.0.1", addrType := AddressType.ipv4,
        scope := AddressScope.machineLocal },
      { value := "8.8.8.8", addrType := AddressType.ipv4,
        scope := AddressScope.public }]
     [{ value := "8.8.8.8", addrType := AddressType.ipv4,
        scope := AddressScope.public },
      { value := "127.0.0.1", addrType := AddressType.ipv4,
        scope := AddressScope.machineLocal }]
     (by decide) (by decide)).1⟩

/-- Validation of the address embedding against the merged-address ordering
asserted by the in-tree test suite: provider and machine inputs in arbitrary
order, with a duplicate, are each stored deduplicated and preference-sorted,
and the merged view lists the provider block first followed by the machine
addresses not shadowed by value. -/
theorem mergedAddresses_matches_test_suite :
    mergedAddresses
      (setMachineAddresses
        (setProviderAddresses
          { providerAddresses := [], machineAddresses := [] }
          [{ value := "127.0.0.2", addrType := .ipv4, scope := .machineLocal },
           { value := "8.8.8.8", addrType := .ipv4, scope := .public },
           { value := "fc00::1", addrType := .ipv6, scope := .cloudLocal },
           { value := "::1", addrType := .ipv6, scope := .machineLocal },
           { value := "2001:db8::1", addrType := .ipv6, scope := .public },
           { value := "127.0.0.2", addrType := .ipv4, scope := .machineLocal },
           { value := "example.org", addrType := .hostname, scope := .unknownScope }])
        [{ value := "127.0.0.1", addrType := .ipv4, scope := .machineLocal },
         { value := "localhost", addrType := .hostname, scope := .machineLocal },
         { value := "2001:db8::1", addrType := .ipv6, scope := .public },
         { value := "192.168.0.1", addrType := .ipv4, scope := .cloudLocal },
         { value := "fe80::1", addrType := .ipv6, scope := .linkLocal },
         { value := "::1", addrType := .ipv6, scope := .machineLocal },
         { value := "fd00::1", addrType := .ipv6, scope := .cloudLocal }]) =
      [{ value := "8.8.8.8", addrType := .ipv4, scope := .public },
       { value := "2001:db8::1", addrType := .ipv6, scope := .public },
       { value := "example.org", addrType := .hostname, scope := .unknownScope },
       { value := "fc00::1", addrType := .ipv6, scope := .cloudLocal },
       { value := "127.0.0.2", addrType := .ipv4, scope := .machineLocal },
       { value := "::1", addrType := .ipv6, scope := .machineLocal },
       { value := "localhost", addrType := .hostname, scope := .machineLocal },
       { value := "192.168.0.1", addrType := .ipv4, scope := .cloudLocal },
       { value := "fd00::1", addrType := .ipv6, scope := .cloudLocal },
       { value := "127.0.0.1", addrType := .ipv4, scope := .machineLocal },
       { value := "fe80::1", addrType := .ipv6, scope := .linkLocal }] := by
  decide

/-- Modelled from the spec: the container types a machine may host. -/
inductive ContainerType where
  | lxc
  | kvm
deriving DecidableEq, Repr

def ContainerType.typeName : ContainerType → String
  | .lxc => "lxc"
  | .kvm => "kvm"

/-- Modelled from the spec: the status of a machine document — pending
(provisionable), started, or an error status with a message and a data
map. -/
inductive MachineStatus where
  | pending
  | started
  | statusError (message : String) (data : List (String × String))
deriving DecidableEq, Repr

/-- A child container of a machine: its id, its container type and its
current status. -/
structure ChildContainer where
  cid : String
  containerType : ContainerType
  machineStatus : MachineStatus
deriving DecidableEq, Repr

/-- Modelled from the spec (section 3 invariants): SetSupportedContainers,
once set to a concrete set, reclassifies every existing child container
outside that set into the error status "unsupported container" with data
type=<container-type>; already-matching children are in the pending
(provisionable) status. -/
def setSupportedContainers (supported : List ContainerType)
    (children : List ChildContainer) : List ChildContainer :=
  children.map fun c =>
    if c.containerType ∈ supported then { c with machineStatus := .pending }
    else
      { c with
          machineStatus :=
            .statusError "unsupported container" [("type", c.containerType.typeName)] }

/-- C8: after SetSupportedContainers([kvm]) on a machine with one existing
lxc child and one existing kvm child (both pending), the lxc child's status
becomes error with message "unsupported container" and data type=lxc, while
the kvm child's status is pending (provisionable). -/
theorem setSupportedContainers_reclassifies (lxcId kvmId : String) :
    setSupportedContainers [ContainerType.kvm]
      [{ cid := lxcId, containerType := ContainerType.lxc,
         machineStatus := MachineStatus.pending },
       { cid := kvmId, containerType := ContainerType.kvm,
         machineStatus := MachineStatus.pending }] =
      [{ cid := lxcId, containerType := ContainerType.lxc,
         machineStatus :=
           MachineStatus.statusError "unsupported container" [("type", "lxc")] },
       { cid := kvmId, containerType := ContainerType.kvm,
         machineStatus := MachineStatus.pending }] := by
  simp [setSupportedContainers, ContainerType.typeName]

end JujuState
